import Mathlib

set_option maxRecDepth 8192

/-!
Shallow embedding of `midi.py` (misterdanb/midi.py): the fixed-width codecs,
the variable-length-quantity codec, the three event families, track events and
chunks, together with proofs about the claims of the specification.

Bytes are modelled as `List Nat`; genuine Python byte buffers carry values
below 256, which theorems assume explicitly where the arithmetic needs it.
Python exceptions (IndexError, ValueError, struct.error, UnicodeDecodeError,
MidiException) are all terminal failures for the enclosing decode call and are
modelled uniformly as `none`.
-/

namespace Midi

abbrev Bytes := List Nat

/-- `bytes_to_uint16` (midi.py line 8): `struct.unpack('>H', byte_list[:4])`;
`unpack` demands exactly 2 bytes, so any other slice length is a failure. -/
def bytes_to_uint16 (byte_list : Bytes) : Option Nat :=
  match byte_list.take 4 with
  | [a, b] => some (a * 256 + b)
  | _ => none

/-- `uint16_to_bytes` (line 11): `struct.pack('>H', value)`.  `pack` raises for
values outside `0 .. 2^16-1`; the model is used only on in-range values. -/
def uint16_to_bytes (value : Nat) : Bytes :=
  [value / 256 % 256, value % 256]

/-- `bytes_to_uint24` (line 14): `struct.unpack('>I', b'\x00' + byte_list[:3])`;
the slice must be exactly 3 bytes long. -/
def bytes_to_uint24 (byte_list : Bytes) : Option Nat :=
  match byte_list.take 3 with
  | [a, b, c] => some (a * 65536 + b * 256 + c)
  | _ => none

/-- `uint24_to_bytes` (line 17): `struct.pack('>I', value)[1:4]` keeps the three
low big-endian digits and drops the top byte. -/
def uint24_to_bytes (value : Nat) : Bytes :=
  [value / 65536 % 256, value / 256 % 256, value % 256]

/-- `bytes_to_uint32` (line 20): `struct.unpack('>I', byte_list[:4])`; the slice
must be exactly 4 bytes long. -/
def bytes_to_uint32 (byte_list : Bytes) : Option Nat :=
  match byte_list.take 4 with
  | [a, b, c, d] => some (a * 16777216 + b * 65536 + c * 256 + d)
  | _ => none

/-- `uint32_to_bytes` (line 23): `struct.pack('>I', value)`. -/
def uint32_to_bytes (value : Nat) : Bytes :=
  [value / 16777216 % 256, value / 65536 % 256, value / 256 % 256, value % 256]

/-- One character of strict UTF-8 decoding, as performed by Python's
`bytes.decode('utf-8')` inside `bytes_to_str` (line 26): given the lead byte
and the remaining buffer it returns the code point and the rest of the buffer;
overlong forms, surrogates, values above U+10FFFF and truncated sequences are
rejected. -/
def utf8DecodeChar? (b0 : Nat) (rest : Bytes) : Option (Nat × Bytes) :=
  if b0 < 0x80 then some (b0, rest)
  else if 0xC2 ≤ b0 ∧ b0 < 0xE0 then
    match rest with
    | b1 :: rest2 =>
      if 0x80 ≤ b1 ∧ b1 < 0xC0 then
        some ((b0 - 0xC0) * 64 + (b1 - 0x80), rest2)
      else none
    | [] => none
  else if 0xE0 ≤ b0 ∧ b0 < 0xF0 then
    match rest with
    | b1 :: b2 :: rest3 =>
      if (0x80 ≤ b1 ∧ b1 < 0xC0) ∧ (b0 ≠ 0xE0 ∨ 0xA0 ≤ b1) ∧
         (b0 ≠ 0xED ∨ b1 < 0xA0) ∧ (0x80 ≤ b2 ∧ b2 < 0xC0) then
        some ((b0 - 0xE0) * 4096 + (b1 - 0x80) * 64 + (b2 - 0x80), rest3)
      else none
    | _ => none
  else if 0xF0 ≤ b0 ∧ b0 < 0xF5 then
    match rest with
    | b1 :: b2 :: b3 :: rest4 =>
      if (0x80 ≤ b1 ∧ b1 < 0xC0) ∧ (b0 ≠ 0xF0 ∨ 0x90 ≤ b1) ∧
         (b0 ≠ 0xF4 ∨ b1 < 0x90) ∧ (0x80 ≤ b2 ∧ b2 < 0xC0) ∧
         (0x80 ≤ b3 ∧ b3 < 0xC0) then
        some ((b0 - 0xF0) * 262144 + (b1 - 0x80) * 4096 +
          (b2 - 0x80) * 64 + (b3 - 0x80), rest4)
      else none
    | _ => none
  else none

/-- Strict UTF-8 decoding of a whole byte list to its code points.  The fuel
argument only bounds the iteration count; every character consumes at least
one byte, so fuel `length` is never exhausted. -/
def utf8DecodeLoop : Nat → Bytes → Option (List Nat)
  | _, [] => some []
  | 0, _ :: _ => none
  | fuel + 1, b0 :: rest =>
    match utf8DecodeChar? b0 rest with
    | none => none
    | some (c, rest2) => (utf8DecodeLoop fuel rest2).map (fun cs => c :: cs)

/-- `bytes_to_str` (line 26): `byte_list.decode('utf-8')`, failing on invalid
UTF-8.  A Python `str` is modelled as its list of code points. -/
def bytes_to_str (byte_list : Bytes) : Option (List Nat) :=
  utf8DecodeLoop byte_list.length byte_list

/-- UTF-8 encoding of one code point, as used by Python's `str.encode('utf-8')`. -/
def utf8EncodeChar (c : Nat) : Bytes :=
  if c < 0x80 then [c]
  else if c < 0x800 then [0xC0 + c / 64, 0x80 + c % 64]
  else if c < 0x10000 then [0xE0 + c / 4096, 0x80 + c / 64 % 64, 0x80 + c % 64]
  else [0xF0 + c / 262144, 0x80 + c / 4096 % 64, 0x80 + c / 64 % 64, 0x80 + c % 64]

/-- `str_to_bytes` (line 29): `value.encode('utf-8')`. -/
def str_to_bytes (value : List Nat) : Bytes :=
  value.foldr (fun c acc => utf8EncodeChar c ++ acc) []

/-- Loop body of `decode_variable_length_value` (lines 38-55): while the high
bit of the current byte is set, OR in its low 7 bits and shift the accumulator;
the first byte with the high bit clear terminates.  Running off the end of the
buffer is an IndexError, i.e. `none`. -/
def decodeVLVaux : Nat → Nat → Bytes → Option (Nat × Nat)
  | _, _, [] => none
  | value, tmp_pos, b :: rest =>
    if b &&& 128 ≠ 0 then
      decodeVLVaux ((value ||| (b &&& 127)) <<< 7) (tmp_pos + 1) rest
    else
      some (value ||| (b &&& 127), tmp_pos + 1)

/-- `decode_variable_length_value` (lines 38-55): returns the decoded value and
the number of bytes consumed. -/
def decode_variable_length_value (byte_list : Bytes) : Option (Nat × Nat) :=
  decodeVLVaux 0 0 byte_list

/-- Loop of `encode_variable_length_value` (lines 63-65): while
`value & 0x7F != 0`, prepend `(value & 0x7F) | 0x80` and shift.  The fuel
argument only bounds the iteration count; `value` strictly decreases on every
step, so fuel `value + 1` is never exhausted. -/
def encodeVLVaux : Nat → Nat → Bytes → Bytes
  | 0, _, acc => acc
  | fuel + 1, value, acc =>
    if value &&& 127 ≠ 0 then
      encodeVLVaux fuel (value >>> 7) (((value &&& 127) ||| 128) :: acc)
    else acc

/-- `encode_variable_length_value` (lines 57-67): the low 7 bits go to the last
byte, then the loop prepends continuation bytes while `value & 0x7F != 0`. -/
def encode_variable_length_value (value : Nat) : Bytes :=
  encodeVLVaux (value + 1) (value >>> 7) [value &&& 127]

/-- `MidiEventType` (lines 196-203): the seven channel-voice status tags. -/
inductive MidiEventType
  | note_off
  | note_on
  | note_pressure
  | control_change
  | program_change
  | channel_pressure
  | pitch_change
deriving DecidableEq

/-- Numeric tag of a `MidiEventType`, as in the Python enum. -/
def MidiEventType.value : MidiEventType → Nat
  | .note_off => 0x80
  | .note_on => 0x90
  | .note_pressure => 0xA0
  | .control_change => 0xB0
  | .program_change => 0xC0
  | .channel_pressure => 0xD0
  | .pitch_change => 0xE0

/-- `enum_values(MidiEventType)` (line 32 applied at line 173). -/
def MidiEventType.values : List Nat :=
  [0x80, 0x90, 0xA0, 0xB0, 0xC0, 0xD0, 0xE0]

/-- `MidiEventType(n)`: enum lookup by value, `ValueError` (= `none`) when no
member matches. -/
def MidiEventType.ofValue : Nat → Option MidiEventType
  | 0x80 => some .note_off
  | 0x90 => some .note_on
  | 0xA0 => some .note_pressure
  | 0xB0 => some .control_change
  | 0xC0 => some .program_change
  | 0xD0 => some .channel_pressure
  | 0xE0 => some .pitch_change
  | _ => none

/-- Per-tag data attributes stored by `MidiEvent.__init__` (lines 205-241),
with the source's attribute names as constructor arguments. -/
inductive MidiEventData
  | note_off (note velocity : Nat)
  | note_on (note velocity : Nat)
  | note_pressure (note pressure : Nat)
  | control_change (control_number new_value : Nat)
  | program_change (program_number : Nat)
  | channel_pressure (channel_pressure : Nat)
  | pitch_change (bottom next_value : Nat)
deriving DecidableEq

/-- `MidiEvent` (lines 205-297): channel-voice event. -/
structure MidiEvent where
  channel_number : Nat
  length : Nat
  data : MidiEventData
deriving DecidableEq

/-- `self.event_type`, determined by the stored data attributes. -/
def MidiEvent.event_type (e : MidiEvent) : MidiEventType :=
  match e.data with
  | .note_off .. => .note_off
  | .note_on .. => .note_on
  | .note_pressure .. => .note_pressure
  | .control_change .. => .control_change
  | .program_change .. => .program_change
  | .channel_pressure .. => .channel_pressure
  | .pitch_change .. => .pitch_change

/-- `MidiEvent.__init__` (lines 206-241): reads the status byte, derives the
tag and channel, then reads 1 or 2 data bytes.  A missing byte (IndexError) or
an unknown tag (ValueError) is a failure. -/
def MidiEvent.decode (byte_list : Bytes) : Option MidiEvent :=
  match byte_list.get? 0 with
  | none => none
  | some b0 =>
    match MidiEventType.ofValue (b0 &&& 0xF0) with
    | none => none
    | some et =>
      match et with
      | .note_off =>
        match byte_list.get? 1, byte_list.get? 2 with
        | some note, some velocity =>
            some ⟨b0 &&& 0x0F, 3, MidiEventData.note_off note velocity⟩
        | _, _ => none
      | .note_on =>
        match byte_list.get? 1, byte_list.get? 2 with
        | some note, some velocity =>
            some ⟨b0 &&& 0x0F, 3, MidiEventData.note_on note velocity⟩
        | _, _ => none
      | .note_pressure =>
        match byte_list.get? 1, byte_list.get? 2 with
        | some note, some pressure =>
            some ⟨b0 &&& 0x0F, 3, MidiEventData.note_pressure note pressure⟩
        | _, _ => none
      | .control_change =>
        match byte_list.get? 1, byte_list.get? 2 with
        | some control_number, some new_value =>
            some ⟨b0 &&& 0x0F, 3, MidiEventData.control_change control_number new_value⟩
        | _, _ => none
      | .program_change =>
        match byte_list.get? 1 with
        | some program_number =>
            some ⟨b0 &&& 0x0F, 2, MidiEventData.program_change program_number⟩
        | none => none
      | .channel_pressure =>
        match byte_list.get? 1 with
        | some channel_pressure =>
            some ⟨b0 &&& 0x0F, 2, MidiEventData.channel_pressure channel_pressure⟩
        | none => none
      | .pitch_change =>
        match byte_list.get? 1, byte_list.get? 2 with
        | some bottom, some next_value =>
            some ⟨b0 &&& 0x0F, 3, MidiEventData.pitch_change bottom next_value⟩
        | _, _ => none

/-- `MidiEvent.to_bytes` (lines 274-297): status byte rebuilt as
`event_type.value | channel_number`, then the stored data bytes. -/
def MidiEvent.to_bytes (e : MidiEvent) : Bytes :=
  (e.event_type.value ||| e.channel_number) ::
    (match e.data with
     | .note_off note velocity => [note, velocity]
     | .note_on note velocity => [note, velocity]
     | .note_pressure note pressure => [note, pressure]
     | .control_change control_number new_value => [control_number, new_value]
     | .program_change program_number => [program_number]
     | .channel_pressure channel_pressure => [channel_pressure]
     | .pitch_change bottom next_value => [bottom, next_value])

/-- `SystemEventType` (lines 299-309).  Note the enum has no `real_time_reset`
member; the branches in the source that mention one are unreachable. -/
inductive SystemEventType
  | exclusive
  | common_song_position
  | common_song_select
  | common_tune_request
  | common
  | real_time_timing_clock
  | real_time_start
  | real_time_continue
  | real_time_stop
  | real_time_active_sensing
deriving DecidableEq

/-- Numeric tag of a `SystemEventType`. -/
def SystemEventType.value : SystemEventType → Nat
  | .exclusive => 0xF0
  | .common_song_position => 0xF2
  | .common_song_select => 0xF3
  | .common_tune_request => 0xF6
  | .common => 0xF7
  | .real_time_timing_clock => 0xF8
  | .real_time_start => 0xFA
  | .real_time_continue => 0xFB
  | .real_time_stop => 0xFC
  | .real_time_active_sensing => 0xFE

/-- `enum_values(SystemEventType)` (line 32 applied at line 175). -/
def SystemEventType.values : List Nat :=
  [0xF0, 0xF2, 0xF3, 0xF6, 0xF7, 0xF8, 0xFA, 0xFB, 0xFC, 0xFE]

/-- `SystemEventType(n)`: enum lookup by value. -/
def SystemEventType.ofValue : Nat → Option SystemEventType
  | 0xF0 => some .exclusive
  | 0xF2 => some .common_song_position
  | 0xF3 => some .common_song_select
  | 0xF6 => some .common_tune_request
  | 0xF7 => some .common
  | 0xF8 => some .real_time_timing_clock
  | 0xFA => some .real_time_start
  | 0xFB => some .real_time_continue
  | 0xFC => some .real_time_stop
  | 0xFE => some .real_time_active_sensing
  | _ => none

/-- Terminator scan of `SystemEvent.__init__` (lines 320-324): the number of
bytes before the first `0xF7`, or `none` (IndexError) when no byte of the
buffer equals `0xF7`. -/
def findTerm : Bytes → Option Nat
  | [] => none
  | b :: rest => if b = 0xF7 then some 0 else (findTerm rest).map (· + 1)

/-- `SystemEvent` (lines 311-388).  The source stores a `payload` attribute
only for `exclusive`/`common` events; for the other tags the field is unused
(the model keeps it as `[]`, and `to_bytes` never reads it there). -/
structure SystemEvent where
  event_type : SystemEventType
  length : Nat
  payload : Bytes
deriving DecidableEq

/-- `SystemEvent.__init__` (lines 312-347): tag lookup, then for
`exclusive`/`common` a scan to the next `0xF7` byte sets
`length = 2 + scan` and `payload = byte_list[1:length-1]`; the remaining tags
store fixed lengths and no payload bytes. -/
def SystemEvent.decode (byte_list : Bytes) : Option SystemEvent :=
  match byte_list.get? 0 with
  | none => none
  | some b0 =>
    match SystemEventType.ofValue b0 with
    | none => none
    | some et =>
      match et with
      | .exclusive =>
        match findTerm (byte_list.drop 1) with
        | some k => some ⟨.exclusive, 2 + k, (byte_list.drop 1).take k⟩
        | none => none
      | .common =>
        match findTerm (byte_list.drop 1) with
        | some k => some ⟨.common, 2 + k, (byte_list.drop 1).take k⟩
        | none => none
      | .common_song_position => some ⟨.common_song_position, 3, []⟩
      | .common_song_select => some ⟨.common_song_select, 2, []⟩
      | .common_tune_request => some ⟨.common_tune_request, 1, []⟩
      | .real_time_timing_clock => some ⟨.real_time_timing_clock, 1, []⟩
      | .real_time_start => some ⟨.real_time_start, 1, []⟩
      | .real_time_continue => some ⟨.real_time_continue, 1, []⟩
      | .real_time_stop => some ⟨.real_time_stop, 1, []⟩
      | .real_time_active_sensing => some ⟨.real_time_active_sensing, 1, []⟩

/-- `SystemEvent.to_bytes` (lines 357-388): the tag byte, then for
`exclusive`/`common` the stored payload plus a `0xF7` terminator; for
`common_song_position`/`common_song_select` constant zero data bytes (the
source marks these `# todo`); nothing for the other tags. -/
def SystemEvent.to_bytes (e : SystemEvent) : Bytes :=
  match e.event_type with
  | .exclusive => e.event_type.value :: e.payload ++ [0xF7]
  | .common => e.event_type.value :: e.payload ++ [0xF7]
  | .common_song_position => [e.event_type.value, 0, 0]
  | .common_song_select => [e.event_type.value, 0]
  | _ => [e.event_type.value]

/-- `MetaEventType` (lines 390-405). -/
inductive MetaEventType
  | sequence_number
  | text
  | copyright_notice
  | text_sequence_or_track_name
  | instrument_name
  | lyric
  | marker
  | cue_point
  | channel_prefix
  | end_of_track
  | tempo
  | smpte_offset
  | time_signature
  | key_signature
  | sequencer_specific_payload
deriving DecidableEq

/-- Numeric tag of a `MetaEventType`. -/
def MetaEventType.value : MetaEventType → Nat
  | .sequence_number => 0x00
  | .text => 0x01
  | .copyright_notice => 0x02
  | .text_sequence_or_track_name => 0x03
  | .instrument_name => 0x04
  | .lyric => 0x05
  | .marker => 0x06
  | .cue_point => 0x07
  | MetaEventType.channel_prefix => 0x20
  | .end_of_track => 0x2F
  | .tempo => 0x51
  | .smpte_offset => 0x54
  | .time_signature => 0x58
  | .key_signature => 0x59
  | .sequencer_specific_payload => 0x7F

/-- `MetaEventType(n)`: enum lookup by value. -/
def MetaEventType.ofValue : Nat → Option MetaEventType
  | 0x00 => some .sequence_number
  | 0x01 => some .text
  | 0x02 => some .copyright_notice
  | 0x03 => some .text_sequence_or_track_name
  | 0x04 => some .instrument_name
  | 0x05 => some .lyric
  | 0x06 => some .marker
  | 0x07 => some .cue_point
  | 0x20 => some MetaEventType.channel_prefix
  | 0x2F => some .end_of_track
  | 0x51 => some .tempo
  | 0x54 => some .smpte_offset
  | 0x58 => some .time_signature
  | 0x59 => some .key_signature
  | 0x7F => some .sequencer_specific_payload
  | _ => none

/-- Per-tag attribute stored by `MetaEvent.__init__` (lines 418-447): a
decoded integer, a decoded text (list of code points), a single byte, nothing,
or the raw payload slice, with the source's attribute names. -/
inductive MetaContent
  | sequence_number (sequence_number : Nat)
  | text (text : List Nat)
  | copyright_notice (copyright_notice : List Nat)
  | text_sequence_or_track_name (text_sequence_or_track_name : List Nat)
  | instrument_name (instrument_name : List Nat)
  | lyric (lyric : List Nat)
  | marker (marker : List Nat)
  | cue_point (cue_point : List Nat)
  | channel_prefix ( channel_prefix : Nat)
  | end_of_track
  | tempo (tempo : Nat)
  | smpte_offset (smpte_offset : Bytes)
  | time_signature (time_signature : Bytes)
  | key_signature (key_signature : Bytes)
  | sequencer_specific_payload (sequencer_specific_payload : Bytes)
deriving DecidableEq

/-- `MetaEvent` (lines 407-540).  `length` is the source's `self.length` after
line 449: var-len bytes consumed `+ 2 + payload_length`. -/
structure MetaEvent where
  payload_length : Nat
  length : Nat
  content : MetaContent
deriving DecidableEq

/-- `self.event_type`, determined by the stored content attribute. -/
def MetaEvent.event_type (e : MetaEvent) : MetaEventType :=
  match e.content with
  | .sequence_number _ => .sequence_number
  | .text _ => .text
  | .copyright_notice _ => .copyright_notice
  | .text_sequence_or_track_name _ => .text_sequence_or_track_name
  | .instrument_name _ => .instrument_name
  | .lyric _ => .lyric
  | .marker _ => .marker
  | .cue_point _ => .cue_point
  | MetaContent.channel_prefix _ => MetaEventType.channel_prefix
  | .end_of_track => .end_of_track
  | .tempo _ => .tempo
  | .smpte_offset _ => .smpte_offset
  | .time_signature _ => .time_signature
  | .key_signature _ => .key_signature
  | .sequencer_specific_payload _ => .sequencer_specific_payload

/-- `MetaEvent.__init__` (lines 408-453): requires status `0xFF`, looks up the
meta tag, reads the payload byte count via the var-len codec, slices
`payload = byte_list[tmp_pos : tmp_pos + payload_length]` (Python slicing
truncates silently at the buffer end), then decodes the per-tag attribute.
Any exception inside is caught by the bare `except` and is a failure. -/
def MetaEvent.decode (byte_list : Bytes) : Option MetaEvent :=
  match byte_list.get? 0 with
  | none => none
  | some b0 =>
    if b0 = 0xFF then
      match byte_list.get? 1 with
      | none => none
      | some b1 =>
        match MetaEventType.ofValue b1 with
        | none => none
        | some et =>
          match decode_variable_length_value (byte_list.drop 2) with
          | none => none
          | some (payload_length, len) =>
            let payload := (byte_list.drop (2 + len)).take payload_length
            let content : Option MetaContent :=
              match et with
              | .sequence_number =>
                  (bytes_to_uint16 payload).map MetaContent.sequence_number
              | .text => (bytes_to_str payload).map MetaContent.text
              | .copyright_notice =>
                  (bytes_to_str payload).map MetaContent.copyright_notice
              | .text_sequence_or_track_name =>
                  (bytes_to_str payload).map MetaContent.text_sequence_or_track_name
              | .instrument_name =>
                  (bytes_to_str payload).map MetaContent.instrument_name
              | .lyric => (bytes_to_str payload).map MetaContent.lyric
              | .marker => (bytes_to_str payload).map MetaContent.marker
              | .cue_point => (bytes_to_str payload).map MetaContent.cue_point
              | MetaEventType.channel_prefix =>
                  (payload.get? 0).map MetaContent.channel_prefix
              | .end_of_track => some MetaContent.end_of_track
              | .tempo => (bytes_to_uint24 payload).map MetaContent.tempo
              | .smpte_offset => some (MetaContent.smpte_offset payload)
              | .time_signature => some (MetaContent.time_signature payload)
              | .key_signature => some (MetaContent.key_signature payload)
              | .sequencer_specific_payload =>
                  some (MetaContent.sequencer_specific_payload payload)
            match content with
            | none => none
            | some c => some ⟨payload_length, len + 2 + payload_length, c⟩
    else none

/-- `MetaEvent.to_bytes` (lines 501-540): `0xFF`, the tag byte, the re-encoded
payload length, then the per-tag attribute bytes.  The `copyright_notice`
branch reads the attribute `self.copyright_noticed`, which is never assigned
(source line 513), so encoding such an event raises AttributeError: `none`. -/
def MetaEvent.to_bytes (e : MetaEvent) : Option Bytes :=
  let head := 0xFF :: e.event_type.value :: encode_variable_length_value e.payload_length
  match e.content with
  | .sequence_number n => some (head ++ uint16_to_bytes n)
  | .text s => some (head ++ str_to_bytes s)
  | .copyright_notice _ => none
  | .text_sequence_or_track_name s => some (head ++ str_to_bytes s)
  | .instrument_name s => some (head ++ str_to_bytes s)
  | .lyric s => some (head ++ str_to_bytes s)
  | .marker s => some (head ++ str_to_bytes s)
  | .cue_point s => some (head ++ str_to_bytes s)
  | MetaContent.channel_prefix n => some (head ++ [n])
  | .end_of_track => some head
  | .tempo n => some (head ++ uint24_to_bytes n)
  | .smpte_offset p => some (head ++ p)
  | .time_signature p => some (head ++ p)
  | .key_signature p => some (head ++ p)
  | .sequencer_specific_payload p => some (head ++ p)

/-- Tagged union over the three event families stored in
`MTrkEvent.self.event` (lines 173-180). -/
inductive Event
  | midi (e : MidiEvent)
  | system (e : SystemEvent)
  | meta (e : MetaEvent)
deriving DecidableEq

/-- The four possible outcomes of the status-byte discrimination in
`MTrkEvent.__init__` (lines 173-180). -/
inductive DispatchResult
  | channelVoice
  | system
  | meta
  | error
deriving DecidableEq

/-- Status-byte discrimination of `MTrkEvent.__init__` (lines 173-180):
channel-voice when `code & 0xF0` is a `MidiEventType` value, else system when
`code` is a `SystemEventType` value, else meta when `code == 0xFF`, else the
`MidiException('No such event')`. -/
def dispatch (event_code : Nat) : DispatchResult :=
  if (event_code &&& 0xF0) ∈ MidiEventType.values then .channelVoice
  else if event_code ∈ SystemEventType.values then .system
  else if event_code = 0xFF then .meta
  else .error

/-- Stored length of the decoded event (`self.event.length`, line 182). -/
def Event.length : Event → Nat
  | .midi e => e.length
  | .system e => e.length
  | .meta e => e.length

/-- Event decoding as dispatched by `MTrkEvent.__init__` (lines 171-180). -/
def Event.decode (byte_list : Bytes) : Option Event :=
  match byte_list.get? 0 with
  | none => none
  | some event_code =>
    match dispatch event_code with
    | .channelVoice => (MidiEvent.decode byte_list).map Event.midi
    | .system => (SystemEvent.decode byte_list).map Event.system
    | .meta => (MetaEvent.decode byte_list).map Event.meta
    | .error => none

/-- `self.event.to_bytes()` (line 192), the family encoders combined. -/
def Event.to_bytes : Event → Option Bytes
  | .midi e => some e.to_bytes
  | .system e => some e.to_bytes
  | .meta e => e.to_bytes

/-- `MTrkEvent` (lines 165-194): a delta time and an event.  `length` is the
source's `self.length` after line 182: delta-time bytes plus event length. -/
structure MTrkEvent where
  delta_time : Nat
  length : Nat
  event : Event
deriving DecidableEq

/-- `MTrkEvent.__init__` (lines 166-182). -/
def MTrkEvent.decode (byte_list : Bytes) : Option MTrkEvent :=
  match decode_variable_length_value byte_list with
  | none => none
  | some (delta_time, len) =>
    match Event.decode (byte_list.drop len) with
    | none => none
    | some event => some ⟨delta_time, len + event.length, event⟩

/-- `MTrkEvent.to_bytes` (lines 188-194): var-len delta time, then the event
bytes. -/
def MTrkEvent.to_bytes (ev : MTrkEvent) : Option Bytes :=
  (Event.to_bytes ev.event).map
    (fun eb => encode_variable_length_value ev.delta_time ++ eb)

/-- `ChunkType` (lines 104-106). -/
inductive ChunkType
  | m_thd
  | m_trk
deriving DecidableEq

/-- The enum's string value (`'MThd'` / `'MTrk'`) as code points. -/
def ChunkType.value : ChunkType → List Nat
  | .m_thd => [77, 84, 104, 100]
  | .m_trk => [77, 84, 114, 107]

/-- `ChunkType(s)`: enum lookup by string value. -/
def ChunkType.ofString (s : List Nat) : Option ChunkType :=
  if s = [77, 84, 104, 100] then some .m_thd
  else if s = [77, 84, 114, 107] then some .m_trk
  else none

/-- Body of a chunk: the three header fields for `MThd`, the event list for
`MTrk` (lines 113-128). -/
inductive ChunkBody
  | header (file_format tracks_count division : Nat)
  | track (mtrk_events : List MTrkEvent)
deriving DecidableEq

/-- `Chunk` (lines 108-163). -/
structure Chunk where
  length : Nat
  body : ChunkBody
deriving DecidableEq

/-- `self.chunk_type`, determined by the body. -/
def Chunk.chunk_type (c : Chunk) : ChunkType :=
  match c.body with
  | .header .. => .m_thd
  | .track .. => .m_trk

/-- Track-decoding loop of `Chunk.__init__` (lines 123-129):
`while tmp_pos < 8 + self.length`, decode an `MTrkEvent` at `tmp_pos` and
advance by its length.  The fuel only bounds the iteration count; every
iteration advances `tmp_pos` by an event length that is at least 2, so fuel
`stop + 1` is never exhausted. -/
def decodeEvents : Nat → Bytes → Nat → Nat → Option (List MTrkEvent)
  | 0, _, _, _ => none
  | fuel + 1, byte_list, tmp_pos, stop =>
    if tmp_pos < stop then
      match MTrkEvent.decode (byte_list.drop tmp_pos) with
      | none => none
      | some ev =>
        match decodeEvents fuel byte_list (tmp_pos + ev.length) stop with
        | none => none
        | some rest => some (ev :: rest)
    else some []

/-- `Chunk.__init__` (lines 109-129): tag string, 32-bit length, then either
the three header fields (requiring `length == 6`, else
`MidiException('Invalid MThd chunk')`) or the track-event loop. -/
def Chunk.decode (byte_list : Bytes) : Option Chunk :=
  match bytes_to_str (byte_list.take 4) with
  | none => none
  | some tag =>
    match ChunkType.ofString tag with
    | none => none
    | some ct =>
      match bytes_to_uint32 ((byte_list.drop 4).take 4) with
      | none => none
      | some len =>
        match ct with
        | .m_thd =>
          if len = 6 then
            match bytes_to_uint16 ((byte_list.drop 8).take 2),
                  bytes_to_uint16 ((byte_list.drop 10).take 2),
                  bytes_to_uint16 ((byte_list.drop 12).take 2) with
            | some file_format, some tracks_count, some division =>
                some ⟨len, ChunkBody.header file_format tracks_count division⟩
            | _, _, _ => none
          else none
        | .m_trk =>
          match decodeEvents (len + 1) byte_list 8 (8 + len) with
          | none => none
          | some evs => some ⟨len, ChunkBody.track evs⟩

/-- Concatenated `mtrk_event.to_bytes()` of the loop at lines 160-161. -/
def trackEventsBytes : List MTrkEvent → Option Bytes
  | [] => some []
  | ev :: rest =>
    match MTrkEvent.to_bytes ev with
    | none => none
    | some h =>
      match trackEventsBytes rest with
      | none => none
      | some t => some (h ++ t)

/-- `Chunk.to_bytes` (lines 149-163): the tag string, the *stored* 32-bit
`self.length` (emitted verbatim, not recomputed from the body), then the
header fields or the concatenated track events. -/
def Chunk.to_bytes (c : Chunk) : Option Bytes :=
  match c.body with
  | .header file_format tracks_count division =>
      some (str_to_bytes (ChunkType.value .m_thd) ++ uint32_to_bytes c.length ++
        uint16_to_bytes file_format ++ uint16_to_bytes tracks_count ++
        uint16_to_bytes division)
  | .track evs =>
      (trackEventsBytes evs).map
        (fun bb => str_to_bytes (ChunkType.value .m_trk) ++
          uint32_to_bytes c.length ++ bb)

/-- Total encoded size of a list of track events as reported at decode time
(sum of the stored `length` fields). -/
def sumLengths (evs : List MTrkEvent) : Nat :=
  evs.foldr (fun ev acc => ev.length + acc) 0

/-- Discrimination rule as worded by the specification: channel-voice when
`status & 0xF0` is one of the seven channel-voice tags, else system when
`status` exactly matches a system-event tag, else meta when `status == 0xFF`,
else a decode error. -/
def specDiscriminate (status : Nat) : DispatchResult :=
  if status &&& 0xF0 = 0x80 ∨ status &&& 0xF0 = 0x90 ∨ status &&& 0xF0 = 0xA0 ∨
     status &&& 0xF0 = 0xB0 ∨ status &&& 0xF0 = 0xC0 ∨ status &&& 0xF0 = 0xD0 ∨
     status &&& 0xF0 = 0xE0 then
    DispatchResult.channelVoice
  else if status = 0xF0 ∨ status = 0xF2 ∨ status = 0xF3 ∨ status = 0xF6 ∨
          status = 0xF7 ∨ status = 0xF8 ∨ status = 0xFA ∨ status = 0xFB ∨
          status = 0xFC ∨ status = 0xFE then
    DispatchResult.system
  else if status = 0xFF then DispatchResult.meta
  else DispatchResult.error

/-- The declared payload byte count agrees with the number of bytes the meta
encoder emits for the stored attribute: the encoder writes exactly 2 bytes for
a sequence number, 1 for a channel prefix, 3 for a tempo and 0 for
end-of-track regardless of the declared count, while text and raw-payload
attributes reproduce their full payload. -/
def metaPayloadSizeOk (e : MetaEvent) : Prop :=
  match e.content with
  | MetaContent.channel_prefix _ => e.payload_length = 1
  | MetaContent.end_of_track => e.payload_length = 0
  | MetaContent.tempo _ => e.payload_length = 3
  | _ => True

section Lemmas

/-- When every byte has its high bit set, the var-len scan loop runs off the
end of the buffer. -/
lemma decodeVLVaux_eq_none (l : Bytes) (h : ∀ x ∈ l, x &&& 128 ≠ 0) :
    ∀ value tmp_pos, decodeVLVaux value tmp_pos l = none := by
  induction l with
  | nil => intro value tmp_pos; rfl
  | cons b rest ih =>
    intro value tmp_pos
    simp only [decodeVLVaux, if_pos (h b (List.mem_cons_self b rest))]
    exact ih (fun x hx => h x (List.mem_cons_of_mem _ hx)) _ _

/-- When no byte equals `0xF7`, the terminator scan runs off the end. -/
lemma findTerm_eq_none (l : Bytes) (h : ∀ x ∈ l, x ≠ 0xF7) : findTerm l = none := by
  induction l with
  | nil => rfl
  | cons b rest ih =>
    simp only [findTerm, if_neg (h b (List.mem_cons_self b rest))]
    rw [ih (fun x hx => h x (List.mem_cons_of_mem _ hx))]
    rfl

lemma str_to_bytes_nil : str_to_bytes [] = [] := rfl

lemma str_to_bytes_cons (c : Nat) (cs : List Nat) :
    str_to_bytes (c :: cs) = utf8EncodeChar c ++ str_to_bytes cs := rfl

lemma utf8DecodeChar?_spec (b0 : Nat) (rest : Bytes) (c : Nat) (rest2 : Bytes)
    (h : utf8DecodeChar? b0 rest = some (c, rest2)) :
    utf8EncodeChar c ++ rest2 = b0 :: rest ∧ rest2.length ≤ rest.length := by
  unfold utf8DecodeChar? at h
  split at h
  · -- ASCII
    next h1 =>
    cases h
    simp only [utf8EncodeChar]; rw [if_pos h1]
    exact ⟨rfl, le_refl _⟩
  next h1 =>
  split at h
  · -- 2-byte lead
    next h2 =>
    split at h
    · -- rest = b1 :: rest2'
      next b1 rest2' =>
      split at h
      · next hg =>
        cases h
        obtain ⟨h2a, h2b⟩ := h2
        obtain ⟨hga, hgb⟩ := hg
        constructor
        · simp only [utf8EncodeChar]
          rw [if_neg (by omega), if_pos (by omega)]
          have e1 : 0xC0 + ((b0 - 0xC0) * 64 + (b1 - 0x80)) / 64 = b0 := by omega
          have e2 : 0x80 + ((b0 - 0xC0) * 64 + (b1 - 0x80)) % 64 = b1 := by omega
          rw [e1, e2]
          rfl
        · simp
      · exact Option.noConfusion h
    · exact Option.noConfusion h
  next h2 =>
  split at h
  · -- 3-byte lead
    next h3 =>
    split at h
    · next b1 b2 rest3 =>
      split at h
      · next hg =>
        cases h
        obtain ⟨h3a, h3b⟩ := h3
        obtain ⟨⟨hga, hgb⟩, hgc, hgd, hge, hgf⟩ := hg
        constructor
        · simp only [utf8EncodeChar]
          rw [if_neg (by omega), if_neg (by omega), if_pos (by omega)]
          have e1 : 0xE0 + ((b0 - 0xE0) * 4096 + (b1 - 0x80) * 64 + (b2 - 0x80)) / 4096 = b0 := by
            omega
          have e2 : 0x80 + ((b0 - 0xE0) * 4096 + (b1 - 0x80) * 64 + (b2 - 0x80)) / 64 % 64 = b1 := by
            omega
          have e3 : 0x80 + ((b0 - 0xE0) * 4096 + (b1 - 0x80) * 64 + (b2 - 0x80)) % 64 = b2 := by
            omega
          rw [e1, e2, e3]
          rfl
        · simp
          omega
      · exact Option.noConfusion h
    · exact Option.noConfusion h
  next h3 =>
  split at h
  · -- 4-byte lead
    next h4 =>
    split at h
    · next b1 b2 b3 rest4 =>
      split at h
      · next hg =>
        cases h
        obtain ⟨h4a, h4b⟩ := h4
        obtain ⟨⟨hga, hgb⟩, hgc, hgd, ⟨hge, hgf⟩, hgg, hgh⟩ := hg
        constructor
        · simp only [utf8EncodeChar]
          rw [if_neg (by omega), if_neg (by omega), if_neg (by omega)]
          have e1 : 0xF0 + ((b0 - 0xF0) * 262144 + (b1 - 0x80) * 4096 + (b2 - 0x80) * 64 +
              (b3 - 0x80)) / 262144 = b0 := by omega
          have e2 : 0x80 + ((b0 - 0xF0) * 262144 + (b1 - 0x80) * 4096 + (b2 - 0x80) * 64 +
              (b3 - 0x80)) / 4096 % 64 = b1 := by omega
          have e3 : 0x80 + ((b0 - 0xF0) * 262144 + (b1 - 0x80) * 4096 + (b2 - 0x80) * 64 +
              (b3 - 0x80)) / 64 % 64 = b2 := by omega
          have e4 : 0x80 + ((b0 - 0xF0) * 262144 + (b1 - 0x80) * 4096 + (b2 - 0x80) * 64 +
              (b3 - 0x80)) % 64 = b3 := by omega
          rw [e1, e2, e3, e4]
          rfl
        · simp
          omega
      · exact Option.noConfusion h
    · exact Option.noConfusion h
  · exact Option.noConfusion h

lemma utf8Loop_roundtrip (fuel : Nat) :
    ∀ bs cs, bs.length ≤ fuel → utf8DecodeLoop fuel bs = some cs →
      str_to_bytes cs = bs := by
  induction fuel with
  | zero =>
    intro bs cs hle h
    cases bs with
    | nil => cases h; rfl
    | cons b0 rest => simp at hle
  | succ fuel ih =>
    intro bs cs hle h
    cases bs with
    | nil => cases h; rfl
    | cons b0 rest =>
      simp only [utf8DecodeLoop] at h
      split at h
      · exact Option.noConfusion h
      · next c rest2 hchar =>
        obtain ⟨cs2, hdec, rfl⟩ := Option.map_eq_some'.mp h
        obtain ⟨henc, hlen2⟩ := utf8DecodeChar?_spec _ _ _ _ hchar
        rw [str_to_bytes_cons, ih rest2 cs2 (by simp at hle; omega) hdec]
        exact henc

lemma bytes_to_str_roundtrip (p : Bytes) (cs : List Nat)
    (h : bytes_to_str p = some cs) : str_to_bytes cs = p :=
  utf8Loop_roundtrip p.length p cs le_rfl h

@[simp] lemma sumLengths_nil : sumLengths [] = 0 := rfl

@[simp] lemma sumLengths_cons (ev : MTrkEvent) (evs : List MTrkEvent) :
    sumLengths (ev :: evs) = ev.length + sumLengths evs := rfl

/-- Loop invariant of the track-decoding loop: on success the final offset —
the initial offset plus the lengths of all decoded events — is at least the
stop offset, since the loop only stops once `tmp_pos < stop` fails. -/
lemma decodeEvents_stop_le (fuel : Nat) :
    ∀ byte_list tmp_pos stop evs,
      decodeEvents fuel byte_list tmp_pos stop = some evs →
      stop ≤ tmp_pos + sumLengths evs := by
  induction fuel with
  | zero => intro _ _ _ _ h; exact Option.noConfusion h
  | succ fuel ih =>
    intro byte_list tmp_pos stop evs h
    unfold decodeEvents at h
    by_cases hlt : tmp_pos < stop
    · rw [if_pos hlt] at h
      split at h
      · exact Option.noConfusion h
      · split at h
        · exact Option.noConfusion h
        · next rest hrest =>
          cases h
          have hle := ih byte_list _ stop rest hrest
          simp only [sumLengths_cons] at *
          omega
    · rw [if_neg hlt] at h
      cases h
      simp only [sumLengths_nil]
      omega

set_option maxHeartbeats 1600000 in
/-- A successful `MidiEventType` lookup returns a member whose value is the
looked-up number. -/
lemma midiEventType_ofValue_value (n : Nat) (et : MidiEventType)
    (h : MidiEventType.ofValue n = some et) : et.value = n := by
  unfold MidiEventType.ofValue at h
  repeat' split at h
  all_goals cases h
  all_goals rfl

set_option maxHeartbeats 1600000 in
/-- A successful `SystemEventType` lookup returns a member whose value is the
looked-up number. -/
lemma systemEventType_ofValue_value (n : Nat) (et : SystemEventType)
    (h : SystemEventType.ofValue n = some et) : et.value = n := by
  unfold SystemEventType.ofValue at h
  repeat' split at h
  all_goals cases h
  all_goals rfl

set_option maxHeartbeats 1600000 in
/-- A successful `MetaEventType` lookup returns a member whose value is the
looked-up number. -/
lemma metaEventType_ofValue_value (n : Nat) (et : MetaEventType)
    (h : MetaEventType.ofValue n = some et) : et.value = n := by
  unfold MetaEventType.ofValue at h
  repeat' split at h
  all_goals cases h
  all_goals rfl

/-- Splitting a byte into its high and low nibble and ORing them back is the
identity, as used by `MidiEvent.to_bytes` to rebuild the status byte. -/
lemma and_or_byte : ∀ x < 256, (x &&& 0xF0) ||| (x &&& 0x0F) = x := by decide

/-- A list of length 3 with known entries at indices 0-2. -/
lemma list_shape3 (l : Bytes) (a b c : Nat) (h0 : l.get? 0 = some a)
    (h1 : l.get? 1 = some b) (h2 : l.get? 2 = some c) (hl : l.length = 3) :
    l = [a, b, c] := by
  obtain ⟨x, y, z, rfl⟩ := List.length_eq_three.mp hl
  simp only [List.get?, Option.some.injEq] at h0 h1 h2
  rw [h0, h1, h2]

/-- A list of length 2 with known entries at indices 0-1. -/
lemma list_shape2 (l : Bytes) (a b : Nat) (h0 : l.get? 0 = some a)
    (h1 : l.get? 1 = some b) (hl : l.length = 2) : l = [a, b] := by
  obtain ⟨x, y, rfl⟩ := List.length_eq_two.mp hl
  simp only [List.get?, Option.some.injEq] at h0 h1
  rw [h0, h1]

/-- A list of length 1 with known entry at index 0. -/
lemma list_shape1 (l : Bytes) (a : Nat) (h0 : l.get? 0 = some a)
    (hl : l.length = 1) : l = [a] := by
  obtain ⟨x, rfl⟩ := List.length_eq_one.mp hl
  simp only [List.get?, Option.some.injEq] at h0
  rw [h0]

/-- Any list with entries at indices 0 and 1 is those two entries followed by
its drop-2 suffix. -/
lemma list_cons2_drop (l : Bytes) (a b : Nat) (h0 : l.get? 0 = some a)
    (h1 : l.get? 1 = some b) : l = a :: b :: l.drop 2 := by
  cases l with
  | nil => exact Option.noConfusion h0
  | cons x t =>
    cases t with
    | nil => exact Option.noConfusion h1
    | cons y t2 =>
      simp only [List.get?, Option.some.injEq] at h0 h1
      rw [h0, h1]
      rfl

/-- A successful 16-bit read forces a 2-byte slice, and writing the value back
restores it. -/
lemma bytes_to_uint16_roundtrip (p : Bytes) (n : Nat)
    (h : bytes_to_uint16 p = some n) (h256 : ∀ x ∈ p, x < 256) :
    uint16_to_bytes n = p ∧ p.length = 2 := by
  unfold bytes_to_uint16 at h
  split at h
  · next a b heq =>
    cases h
    have hl : p.length = 2 := by
      have := congrArg List.length heq
      simp only [List.length_take, List.length_cons, List.length_nil] at this
      omega
    have hp : p = [a, b] := by rw [← heq, List.take_of_length_le (by omega)]
    subst hp
    have ha : a < 256 := h256 a (by simp)
    have hb : b < 256 := h256 b (by simp)
    refine ⟨?_, rfl⟩
    unfold uint16_to_bytes
    have e1 : (a * 256 + b) / 256 % 256 = a := by omega
    have e2 : (a * 256 + b) % 256 = b := by omega
    rw [e1, e2]
  · exact Option.noConfusion h

/-- A successful 24-bit read forces at least 3 bytes, and writing the value
back restores the 3-byte prefix. -/
lemma bytes_to_uint24_roundtrip (p : Bytes) (n : Nat)
    (h : bytes_to_uint24 p = some n) (h256 : ∀ x ∈ p, x < 256) :
    uint24_to_bytes n = p.take 3 ∧ 3 ≤ p.length := by
  unfold bytes_to_uint24 at h
  split at h
  · next a b c heq =>
    cases h
    have hl : 3 ≤ p.length := by
      have := congrArg List.length heq
      simp only [List.length_take, List.length_cons, List.length_nil] at this
      omega
    have ha : a < 256 := h256 a (List.take_subset 3 p (heq ▸ by simp))
    have hb : b < 256 := h256 b (List.take_subset 3 p (heq ▸ by simp))
    have hc : c < 256 := h256 c (List.take_subset 3 p (heq ▸ by simp))
    refine ⟨?_, hl⟩
    rw [heq]
    unfold uint24_to_bytes
    have e1 : (a * 65536 + b * 256 + c) / 65536 % 256 = a := by omega
    have e2 : (a * 65536 + b * 256 + c) / 256 % 256 = b := by omega
    have e3 : (a * 65536 + b * 256 + c) % 256 = c := by omega
    rw [e1, e2, e3]
  · exact Option.noConfusion h

/-- When the terminator scan finds index `k` in a buffer of length `k + 1`,
the buffer is its first `k` bytes followed by the `0xF7` terminator. -/
lemma findTerm_last (l : Bytes) : ∀ k, findTerm l = some k → l.length = k + 1 →
    l = l.take k ++ [0xF7] := by
  induction l with
  | nil => intro k h _; exact Option.noConfusion h
  | cons b rest ih =>
    intro k h hl
    by_cases hb : b = 0xF7
    · subst hb
      rw [show findTerm (0xF7 :: rest) = some 0 from rfl] at h
      cases h
      simp only [List.length_cons] at hl
      have : rest = [] := List.eq_nil_of_length_eq_zero (by omega)
      subst this
      rfl
    · simp only [findTerm, if_neg hb] at h
      obtain ⟨k2, hk2, rfl⟩ := Option.map_eq_some'.mp h
      simp only [List.length_cons] at hl
      have hres := ih k2 hk2 (by omega)
      calc b :: rest = b :: (rest.take k2 ++ [0xF7]) := by rw [← hres]
        _ = (b :: rest).take (k2 + 1) ++ [0xF7] := by simp [List.take]

/-- Channel-voice events re-encode to exactly the bytes they were decoded
from, whenever the buffer is exactly one event. -/
lemma midi_roundtrip (byte_list : Bytes) (e : MidiEvent)
    (h256 : ∀ x ∈ byte_list, x < 256)
    (hdec : MidiEvent.decode byte_list = some e)
    (hlen : e.length = byte_list.length) :
    MidiEvent.to_bytes e = byte_list := by
  unfold MidiEvent.decode at hdec
  split at hdec
  · exact Option.noConfusion hdec
  next b0 hb0 =>
  split at hdec
  · exact Option.noConfusion hdec
  next et het =>
  have hval := midiEventType_ofValue_value _ _ het
  have hb0eq := and_or_byte b0 (h256 _ (List.get?_mem hb0))
  split at hdec
  · split at hdec
    next d1 d2 h1 h2 =>
      cases hdec
      obtain rfl := list_shape3 byte_list b0 d1 d2 hb0 h1 h2 hlen.symm
      simp only [MidiEvent.to_bytes, MidiEvent.event_type]
      rw [hval, hb0eq]
    all_goals exact Option.noConfusion hdec
  · split at hdec
    next d1 d2 h1 h2 =>
      cases hdec
      obtain rfl := list_shape3 byte_list b0 d1 d2 hb0 h1 h2 hlen.symm
      simp only [MidiEvent.to_bytes, MidiEvent.event_type]
      rw [hval, hb0eq]
    all_goals exact Option.noConfusion hdec
  · split at hdec
    next d1 d2 h1 h2 =>
      cases hdec
      obtain rfl := list_shape3 byte_list b0 d1 d2 hb0 h1 h2 hlen.symm
      simp only [MidiEvent.to_bytes, MidiEvent.event_type]
      rw [hval, hb0eq]
    all_goals exact Option.noConfusion hdec
  · split at hdec
    next d1 d2 h1 h2 =>
      cases hdec
      obtain rfl := list_shape3 byte_list b0 d1 d2 hb0 h1 h2 hlen.symm
      simp only [MidiEvent.to_bytes, MidiEvent.event_type]
      rw [hval, hb0eq]
    all_goals exact Option.noConfusion hdec
  · split at hdec
    next d1 h1 =>
      cases hdec
      obtain rfl := list_shape2 byte_list b0 d1 hb0 h1 hlen.symm
      simp only [MidiEvent.to_bytes, MidiEvent.event_type]
      rw [hval, hb0eq]
    all_goals exact Option.noConfusion hdec
  · split at hdec
    next d1 h1 =>
      cases hdec
      obtain rfl := list_shape2 byte_list b0 d1 hb0 h1 hlen.symm
      simp only [MidiEvent.to_bytes, MidiEvent.event_type]
      rw [hval, hb0eq]
    all_goals exact Option.noConfusion hdec
  · split at hdec
    next d1 d2 h1 h2 =>
      cases hdec
      obtain rfl := list_shape3 byte_list b0 d1 d2 hb0 h1 h2 hlen.symm
      simp only [MidiEvent.to_bytes, MidiEvent.event_type]
      rw [hval, hb0eq]
    all_goals exact Option.noConfusion hdec

/-- System events other than SongPosition/SongSelect re-encode to exactly the
bytes they were decoded from, whenever the buffer is exactly one event. -/
lemma system_roundtrip (byte_list : Bytes) (e : SystemEvent)
    (hdec : SystemEvent.decode byte_list = some e)
    (hlen : e.length = byte_list.length)
    (hpos : e.event_type ≠ SystemEventType.common_song_position)
    (hsel : e.event_type ≠ SystemEventType.common_song_select) :
    SystemEvent.to_bytes e = byte_list := by
  unfold SystemEvent.decode at hdec
  split at hdec
  · exact Option.noConfusion hdec
  next b0 hb0 =>
  split at hdec
  · exact Option.noConfusion hdec
  next et het =>
  have hval := systemEventType_ofValue_value _ _ het
  split at hdec
  · split at hdec
    next k hft =>
      cases hdec
      cases byte_list with
      | nil => exact Option.noConfusion hb0
      | cons x tail =>
        obtain rfl : x = b0 := by simpa using hb0
        have h2k : 2 + k = (x :: tail).length := hlen
        have htl : tail.length = k + 1 := by
          simp only [List.length_cons] at h2k
          omega
        have hdecomp := findTerm_last tail k hft htl
        simp only [SystemEvent.to_bytes]
        rw [hval]
        show x :: (tail.take k ++ [0xF7]) = x :: tail
        rw [← hdecomp]
    · exact Option.noConfusion hdec
  · split at hdec
    next k hft =>
      cases hdec
      cases byte_list with
      | nil => exact Option.noConfusion hb0
      | cons x tail =>
        obtain rfl : x = b0 := by simpa using hb0
        have h2k : 2 + k = (x :: tail).length := hlen
        have htl : tail.length = k + 1 := by
          simp only [List.length_cons] at h2k
          omega
        have hdecomp := findTerm_last tail k hft htl
        simp only [SystemEvent.to_bytes]
        rw [hval]
        show x :: (tail.take k ++ [0xF7]) = x :: tail
        rw [← hdecomp]
    · exact Option.noConfusion hdec
  · cases hdec
    exact absurd rfl hpos
  · cases hdec
    exact absurd rfl hsel
  · cases hdec
    obtain rfl := list_shape1 byte_list b0 hb0 hlen.symm
    simp only [SystemEvent.to_bytes]
    rw [hval]
  · cases hdec
    obtain rfl := list_shape1 byte_list b0 hb0 hlen.symm
    simp only [SystemEvent.to_bytes]
    rw [hval]
  · cases hdec
    obtain rfl := list_shape1 byte_list b0 hb0 hlen.symm
    simp only [SystemEvent.to_bytes]
    rw [hval]
  · cases hdec
    obtain rfl := list_shape1 byte_list b0 hb0 hlen.symm
    simp only [SystemEvent.to_bytes]
    rw [hval]
  · cases hdec
    obtain rfl := list_shape1 byte_list b0 hb0 hlen.symm
    simp only [SystemEvent.to_bytes]
    rw [hval]
  · cases hdec
    obtain rfl := list_shape1 byte_list b0 hb0 hlen.symm
    simp only [SystemEvent.to_bytes]
    rw [hval]

/-- Meta events re-encode to exactly the bytes they were decoded from,
whenever the buffer is exactly one event, the stored payload count re-encodes
to the original length field, the tag is not copyright-notice, and the
declared count matches the encoder's output size for the stored attribute. -/
lemma meta_roundtrip (byte_list : Bytes) (e : MetaEvent)
    (h256 : ∀ x ∈ byte_list, x < 256)
    (hdec : MetaEvent.decode byte_list = some e)
    (hlen : e.length = byte_list.length)
    (hcopy : e.event_type ≠ MetaEventType.copyright_notice)
    (henc : encode_variable_length_value e.payload_length =
      (byte_list.drop 2).take (e.length - 2 - e.payload_length))
    (hsize : metaPayloadSizeOk e) :
    MetaEvent.to_bytes e = some byte_list := by
  unfold MetaEvent.decode at hdec
  split at hdec
  · exact Option.noConfusion hdec
  next b0 hb0 =>
  split at hdec
  case isFalse => exact Option.noConfusion hdec
  case isTrue hff =>
  subst hff
  split at hdec
  · exact Option.noConfusion hdec
  next b1 hb1 =>
  split at hdec
  · exact Option.noConfusion hdec
  next et het =>
  have hval := metaEventType_ofValue_value _ _ het
  split at hdec
  · exact Option.noConfusion hdec
  next plen len hvlv =>
  simp only [] at hdec
  split at hdec
  · exact Option.noConfusion hdec
  next c hc =>
  cases hdec
  have hlen2 : len + 2 + plen = byte_list.length := hlen
  have henc2 : encode_variable_length_value plen =
      (byte_list.drop 2).take (len + 2 + plen - 2 - plen) := henc
  have hidx : len + 2 + plen - 2 - plen = len := by omega
  rw [hidx] at henc2
  have hdlen : (byte_list.drop (2 + len)).length = plen := by
    rw [List.length_drop]
    omega
  have hpay : (byte_list.drop (2 + len)).take plen = byte_list.drop (2 + len) :=
    List.take_of_length_le (by rw [hdlen])
  have h256d : ∀ x ∈ byte_list.drop (2 + len), x < 256 :=
    fun x hx => h256 x (List.drop_subset _ _ hx)
  have hsplit2 : (byte_list.drop 2).take len ++ byte_list.drop (2 + len) =
      byte_list.drop 2 := by
    conv_rhs => rw [← List.take_append_drop len (byte_list.drop 2)]
    rw [List.drop_drop]
  have hbytes : byte_list = 0xFF :: b1 :: byte_list.drop 2 :=
    list_cons2_drop byte_list 0xFF b1 hb0 hb1
  split at hc
  · -- sequence_number
    obtain ⟨n, hn, rfl⟩ := Option.map_eq_some'.mp hc
    rw [hpay] at hn
    obtain ⟨hu, _⟩ := bytes_to_uint16_roundtrip _ _ hn h256d
    simp only [MetaEvent.to_bytes, MetaEvent.event_type, Option.some.injEq]
    rw [hval, henc2, hu]
    simp only [List.cons_append]
    rw [hsplit2, ← hbytes]
  · -- text
    obtain ⟨cps, hcps, rfl⟩ := Option.map_eq_some'.mp hc
    rw [hpay] at hcps
    have hs := bytes_to_str_roundtrip _ _ hcps
    simp only [MetaEvent.to_bytes, MetaEvent.event_type, Option.some.injEq]
    rw [hval, henc2, hs]
    simp only [List.cons_append]
    rw [hsplit2, ← hbytes]
  · -- copyright_notice
    obtain ⟨cps, hcps, rfl⟩ := Option.map_eq_some'.mp hc
    exact absurd rfl hcopy
  · -- text_sequence_or_track_name
    obtain ⟨cps, hcps, rfl⟩ := Option.map_eq_some'.mp hc
    rw [hpay] at hcps
    have hs := bytes_to_str_roundtrip _ _ hcps
    simp only [MetaEvent.to_bytes, MetaEvent.event_type, Option.some.injEq]
    rw [hval, henc2, hs]
    simp only [List.cons_append]
    rw [hsplit2, ← hbytes]
  · -- instrument_name
    obtain ⟨cps, hcps, rfl⟩ := Option.map_eq_some'.mp hc
    rw [hpay] at hcps
    have hs := bytes_to_str_roundtrip _ _ hcps
    simp only [MetaEvent.to_bytes, MetaEvent.event_type, Option.some.injEq]
    rw [hval, henc2, hs]
    simp only [List.cons_append]
    rw [hsplit2, ← hbytes]
  · -- lyric
    obtain ⟨cps, hcps, rfl⟩ := Option.map_eq_some'.mp hc
    rw [hpay] at hcps
    have hs := bytes_to_str_roundtrip _ _ hcps
    simp only [MetaEvent.to_bytes, MetaEvent.event_type, Option.some.injEq]
    rw [hval, henc2, hs]
    simp only [List.cons_append]
    rw [hsplit2, ← hbytes]
  · -- marker
    obtain ⟨cps, hcps, rfl⟩ := Option.map_eq_some'.mp hc
    rw [hpay] at hcps
    have hs := bytes_to_str_roundtrip _ _ hcps
    simp only [MetaEvent.to_bytes, MetaEvent.event_type, Option.some.injEq]
    rw [hval, henc2, hs]
    simp only [List.cons_append]
    rw [hsplit2, ← hbytes]
  · -- cue_point
    obtain ⟨cps, hcps, rfl⟩ := Option.map_eq_some'.mp hc
    rw [hpay] at hcps
    have hs := bytes_to_str_roundtrip _ _ hcps
    simp only [MetaEvent.to_bytes, MetaEvent.event_type, Option.some.injEq]
    rw [hval, henc2, hs]
    simp only [List.cons_append]
    rw [hsplit2, ← hbytes]
  · -- channel_prefix
    obtain ⟨pfx, hpfx, rfl⟩ := Option.map_eq_some'.mp hc
    have hplen1 : plen = 1 := hsize
    rw [hpay] at hpfx
    have hone : byte_list.drop (2 + len) = [pfx] :=
      list_shape1 _ _ hpfx (by rw [hdlen, hplen1])
    simp only [MetaEvent.to_bytes, MetaEvent.event_type, Option.some.injEq]
    rw [hval, henc2, ← hone]
    simp only [List.cons_append]
    rw [hsplit2, ← hbytes]
  · -- end_of_track
    cases hc
    have hplen0 : plen = 0 := hsize
    have hnil : byte_list.drop (2 + len) = [] :=
      List.eq_nil_of_length_eq_zero (by rw [hdlen, hplen0])
    have hd2 : (byte_list.drop 2).take len = byte_list.drop 2 := by
      conv_rhs => rw [← hsplit2]
      rw [hnil, List.append_nil]
    simp only [MetaEvent.to_bytes, MetaEvent.event_type, Option.some.injEq]
    rw [hval, henc2, hd2, ← hbytes]
  · -- tempo
    obtain ⟨n, hn, rfl⟩ := Option.map_eq_some'.mp hc
    have hplen3 : plen = 3 := hsize
    rw [hpay] at hn
    obtain ⟨hu, _⟩ := bytes_to_uint24_roundtrip _ _ hn h256d
    rw [List.take_of_length_le (by rw [hdlen, hplen3])] at hu
    simp only [MetaEvent.to_bytes, MetaEvent.event_type, Option.some.injEq]
    rw [hval, henc2, hu]
    simp only [List.cons_append]
    rw [hsplit2, ← hbytes]
  · -- smpte_offset
    cases hc
    simp only [MetaEvent.to_bytes, MetaEvent.event_type, Option.some.injEq]
    rw [hval, henc2, hpay]
    simp only [List.cons_append]
    rw [hsplit2, ← hbytes]
  · -- time_signature
    cases hc
    simp only [MetaEvent.to_bytes, MetaEvent.event_type, Option.some.injEq]
    rw [hval, henc2, hpay]
    simp only [List.cons_append]
    rw [hsplit2, ← hbytes]
  · -- key_signature
    cases hc
    simp only [MetaEvent.to_bytes, MetaEvent.event_type, Option.some.injEq]
    rw [hval, henc2, hpay]
    simp only [List.cons_append]
    rw [hsplit2, ← hbytes]
  · -- sequencer_specific_payload
    cases hc
    simp only [MetaEvent.to_bytes, MetaEvent.event_type, Option.some.injEq]
    rw [hval, henc2, hpay]
    simp only [List.cons_append]
    rw [hsplit2, ← hbytes]

end Lemmas

/-- C2: for every unsigned 32-bit `v`, `decode(encode(v)) = (v, len(encode v))`,
`encode` stays within 5 bytes and `encode 0 = [0x00]`.  The round-trip part
fails on the code: the encoder's loop guard tests `value & 0x7F != 0` instead
of `value != 0`, so `encode 16384 = [0x00]` and decoding it yields `0`. -/
theorem spec_C2_encode_loop_bug :
    encode_variable_length_value 16384 = [0] ∧
    decode_variable_length_value (encode_variable_length_value 16384) =
      some (0, 1) ∧ (16384 : Nat) ≠ 0 := by
  decide

/-- C8: when every byte of the buffer has its high bit set (so the buffer ends
before a terminating byte is found), var-len decoding fails; the model's scan
is structural recursion over the buffer, so it never reads out of bounds. -/
theorem spec_C8_varlen_truncated (byte_list : Bytes)
    (h : ∀ x ∈ byte_list, x &&& 128 ≠ 0) :
    decode_variable_length_value byte_list = none :=
  decodeVLVaux_eq_none byte_list h 0 0

/-- Witness for C8 at the concrete truncated buffer `[0x81, 0x80]`. -/
theorem spec_C8_varlen_truncated_witness :
    (∀ x ∈ ([0x81, 0x80] : Bytes), x &&& 128 ≠ 0) ∧
      decode_variable_length_value [0x81, 0x80] = none :=
  ⟨by decide, spec_C8_varlen_truncated [0x81, 0x80] (by decide)⟩

/-- C4: a buffer starting with the SystemExclusive status `0xF0` and containing
no `0xF7` terminator in the remaining bytes fails to decode as a system event;
the model's terminator scan is structural recursion over the buffer, so it
never reads out of bounds. -/
theorem spec_C4_sysex_truncated (byte_list : Bytes)
    (h0 : byte_list.get? 0 = some 0xF0)
    (hterm : ∀ x ∈ byte_list.drop 1, x ≠ 0xF7) :
    SystemEvent.decode byte_list = none := by
  have hof : SystemEventType.ofValue 0xF0 = some SystemEventType.exclusive := by decide
  unfold SystemEvent.decode
  simp only [h0, hof, findTerm_eq_none _ hterm]

/-- Witness for C4 at the concrete buffer `[0xF0, 0x01, 0x02]`. -/
theorem spec_C4_sysex_truncated_witness :
    ([0xF0, 0x01, 0x02] : Bytes).get? 0 = some 0xF0 ∧
      SystemEvent.decode [0xF0, 0x01, 0x02] = none :=
  ⟨by decide, spec_C4_sysex_truncated [0xF0, 0x01, 0x02] (by decide) (by decide)⟩

/-- C6: for every status byte `0x00`-`0xFF`, the decoder's dispatch is the
total function `dispatch` (so the outcome is exactly one of channel-voice,
system, meta or decode error), and it agrees with the specification's
discrimination rule; channel-voice statuses are exactly `0x80`-`0xEF`, meta is
exactly `0xFF`, and the error statuses are exactly `0x00`-`0x7F` and
`0xF1, 0xF4, 0xF5, 0xF9, 0xFD`. -/
theorem spec_C6_discrimination (code : Fin 256) :
    dispatch code.val = specDiscriminate code.val ∧
    (dispatch code.val = DispatchResult.channelVoice ↔
      0x80 ≤ code.val ∧ code.val ≤ 0xEF) ∧
    (dispatch code.val = DispatchResult.meta ↔ code.val = 0xFF) ∧
    (dispatch code.val = DispatchResult.error ↔
      code.val ≤ 0x7F ∨ code.val = 0xF1 ∨ code.val = 0xF4 ∨ code.val = 0xF5 ∨
        code.val = 0xF9 ∨ code.val = 0xFD) := by
  revert code
  set_option maxRecDepth 8192 in decide

/-- C10: a successfully decoded SongPosition system event re-encodes to exactly
`F2 00 00` and a SongSelect event to exactly `F3 00`; the decoder stores no
data bytes for these tags and the encoder emits constant zeros. -/
theorem spec_C10_song_position_zeros (byte_list : Bytes) (e : SystemEvent)
    (hdec : SystemEvent.decode byte_list = some e) :
    (e.event_type = SystemEventType.common_song_position →
      e.payload = [] ∧ SystemEvent.to_bytes e = [0xF2, 0, 0]) ∧
    (e.event_type = SystemEventType.common_song_select →
      e.payload = [] ∧ SystemEvent.to_bytes e = [0xF3, 0]) := by
  unfold SystemEvent.decode at hdec
  repeat' split at hdec
  any_goals exact Option.noConfusion hdec
  all_goals cases hdec
  all_goals
    exact ⟨fun h => by simp_all [SystemEvent.to_bytes, SystemEventType.value],
           fun h => by simp_all [SystemEvent.to_bytes, SystemEventType.value]⟩

/-- Witness for C10 at the concrete buffer `F2 11 22` with nonzero data
bytes. -/
theorem spec_C10_song_position_zeros_witness :
    SystemEvent.decode [0xF2, 0x11, 0x22] =
      some ⟨SystemEventType.common_song_position, 3, []⟩ ∧
    ((⟨SystemEventType.common_song_position, 3, []⟩ : SystemEvent).event_type =
        SystemEventType.common_song_position →
      (⟨SystemEventType.common_song_position, 3, []⟩ : SystemEvent).payload = [] ∧
      SystemEvent.to_bytes ⟨SystemEventType.common_song_position, 3, []⟩ =
        [0xF2, 0, 0]) :=
  ⟨by decide,
    (spec_C10_song_position_zeros [0xF2, 0x11, 0x22] _ (by decide)).1⟩

/-- C3 (corrected): `Chunk.to_bytes` emits the *stored* `length` field
verbatim — the first 8 emitted bytes are always the tag string followed by the
32-bit stored `self.length`, never a value recomputed from the body — so after
mutating the events the emitted length can disagree with the emitted body
size. -/
theorem spec_C3_stored_length_emitted (c : Chunk) (bs : Bytes)
    (h : Chunk.to_bytes c = some bs) :
    bs.take 8 = str_to_bytes (ChunkType.value c.chunk_type) ++
      uint32_to_bytes c.length := by
  obtain ⟨len, body⟩ := c
  cases body with
  | header file_format tracks_count division =>
    simp only [Chunk.to_bytes, Option.some.injEq] at h
    subst h
    simp [str_to_bytes, utf8EncodeChar, ChunkType.value, Chunk.chunk_type,
      uint32_to_bytes, uint16_to_bytes, List.take]
  | track evs =>
    simp only [Chunk.to_bytes] at h
    cases hbb : trackEventsBytes evs with
    | none => rw [hbb] at h; exact Option.noConfusion h
    | some bb =>
      rw [hbb] at h
      simp only [Option.map_some', Option.some.injEq] at h
      subst h
      simp [str_to_bytes, utf8EncodeChar, ChunkType.value, Chunk.chunk_type,
        uint32_to_bytes, List.take]

/-- Witness for C3's theorem at a concrete header chunk. -/
theorem spec_C3_stored_length_emitted_witness :
    Chunk.to_bytes ⟨6, ChunkBody.header 1 2 96⟩ =
      some [77, 84, 104, 100, 0, 0, 0, 6, 0, 1, 0, 2, 0, 96] ∧
    ([77, 84, 104, 100, 0, 0, 0, 6, 0, 1, 0, 2, 0, 96] : Bytes).take 8 =
      str_to_bytes (ChunkType.value (Chunk.chunk_type ⟨6, ChunkBody.header 1 2 96⟩)) ++
        uint32_to_bytes 6 :=
  ⟨by decide, spec_C3_stored_length_emitted ⟨6, ChunkBody.header 1 2 96⟩ _ (by decide)⟩

/-- Counterexample for C3 as claimed: decode a 4-byte track chunk, replace its
event list by `[]` (the claim's "events mutated after decode"), and re-encode:
the emitted length field still says 4 while the emitted body is empty, so the
emitted length does not equal the emitted body size. -/
theorem spec_C3_counterexample :
    Chunk.decode [77, 84, 114, 107, 0, 0, 0, 4, 0, 0x90, 60, 64] =
      some ⟨4, ChunkBody.track [⟨0, 4, Event.midi ⟨0, 3, MidiEventData.note_on 60 64⟩⟩]⟩ ∧
    Chunk.to_bytes ⟨4, ChunkBody.track []⟩ = some [77, 84, 114, 107, 0, 0, 0, 4] ∧
    (([77, 84, 114, 107, 0, 0, 0, 4] : Bytes).drop 8).length ≠ 4 := by
  decide

/-- C5 (corrected): the track-decoding loop has no overrun check — it only
stops once the cumulative offset reaches or passes the declared length, so a
successful decode consumes at least, and possibly strictly more than, the
declared `length` bytes, and never fails with an overrun error. -/
theorem spec_C5_no_overrun_check (byte_list : Bytes) (c : Chunk)
    (evs : List MTrkEvent) (hdec : Chunk.decode byte_list = some c)
    (hbody : c.body = ChunkBody.track evs) :
    c.length ≤ sumLengths evs := by
  unfold Chunk.decode at hdec
  split at hdec
  · exact Option.noConfusion hdec
  next tag htag =>
  split at hdec
  · exact Option.noConfusion hdec
  next ct hct =>
  split at hdec
  · exact Option.noConfusion hdec
  next len hlen =>
  split at hdec
  · split at hdec
    · split at hdec
      all_goals first
        | exact Option.noConfusion hdec
        | (cases hdec; exact ChunkBody.noConfusion hbody)
    · exact Option.noConfusion hdec
  · split at hdec
    · exact Option.noConfusion hdec
    next evs' hevs =>
    cases hdec
    have hb : ChunkBody.track evs' = ChunkBody.track evs := hbody
    cases hb
    have hle := decodeEvents_stop_le (len + 1) byte_list 8 (8 + len) evs hevs
    show len ≤ sumLengths evs
    omega

/-- Witness for C5's theorem at an exact-length track chunk. -/
theorem spec_C5_no_overrun_check_witness :
    Chunk.decode [77, 84, 114, 107, 0, 0, 0, 4, 0, 0x90, 60, 64] =
      some ⟨4, ChunkBody.track [⟨0, 4, Event.midi ⟨0, 3, MidiEventData.note_on 60 64⟩⟩]⟩ ∧
    (4 : Nat) ≤ sumLengths [⟨0, 4, Event.midi ⟨0, 3, MidiEventData.note_on 60 64⟩⟩] :=
  ⟨by decide,
    spec_C5_no_overrun_check [77, 84, 114, 107, 0, 0, 0, 4, 0, 0x90, 60, 64]
      ⟨4, ChunkBody.track [⟨0, 4, Event.midi ⟨0, 3, MidiEventData.note_on 60 64⟩⟩]⟩
      [⟨0, 4, Event.midi ⟨0, 3, MidiEventData.note_on 60 64⟩⟩] (by decide) rfl⟩

/-- Counterexample for C5 as claimed: a track chunk with declared length 2
whose single event is 4 bytes long decodes *successfully* (consuming 4 > 2
bytes from beyond the declared body) instead of failing with
`TrackChunkOverrun`, and the cumulative consumed bytes do not equal the
declared length. -/
theorem spec_C5_counterexample :
    Chunk.decode [77, 84, 114, 107, 0, 0, 0, 2, 0, 0x90, 60, 64] =
      some ⟨2, ChunkBody.track [⟨0, 4, Event.midi ⟨0, 3, MidiEventData.note_on 60 64⟩⟩]⟩ ∧
    2 < sumLengths [⟨0, 4, Event.midi ⟨0, 3, MidiEventData.note_on 60 64⟩⟩] := by
  decide

/-- C7 (corrected): meta decoding slices the payload with silent truncation
and no completeness check: whenever the `0xFF` header and the var-len length
field parse, each of the tags end-of-track (`0x2F`), SMPTE offset (`0x54`),
time signature (`0x58`), key signature (`0x59`) and sequencer-specific
(`0x7F`) decodes successfully, storing `take payload_length` of whatever
remains (nothing, for end-of-track) — even when fewer bytes remain than
declared — and still reporting the full declared length. -/
theorem spec_C7_truncating_slice (byte_list : Bytes) (payload_length len : Nat)
    (h0 : byte_list.get? 0 = some 0xFF)
    (hvlv : decode_variable_length_value (byte_list.drop 2) =
      some (payload_length, len)) :
    (byte_list.get? 1 = some 0x2F → MetaEvent.decode byte_list =
      some ⟨payload_length, len + 2 + payload_length, MetaContent.end_of_track⟩) ∧
    (byte_list.get? 1 = some 0x54 → MetaEvent.decode byte_list =
      some ⟨payload_length, len + 2 + payload_length,
        MetaContent.smpte_offset ((byte_list.drop (2 + len)).take payload_length)⟩) ∧
    (byte_list.get? 1 = some 0x58 → MetaEvent.decode byte_list =
      some ⟨payload_length, len + 2 + payload_length,
        MetaContent.time_signature ((byte_list.drop (2 + len)).take payload_length)⟩) ∧
    (byte_list.get? 1 = some 0x59 → MetaEvent.decode byte_list =
      some ⟨payload_length, len + 2 + payload_length,
        MetaContent.key_signature ((byte_list.drop (2 + len)).take payload_length)⟩) ∧
    (byte_list.get? 1 = some 0x7F → MetaEvent.decode byte_list =
      some ⟨payload_length, len + 2 + payload_length,
        MetaContent.sequencer_specific_payload
          ((byte_list.drop (2 + len)).take payload_length)⟩) := by
  refine ⟨fun h1 => ?_, fun h1 => ?_, fun h1 => ?_, fun h1 => ?_, fun h1 => ?_⟩
  all_goals unfold MetaEvent.decode
  · simp only [h0, h1, hvlv,
      show MetaEventType.ofValue 0x2F = some MetaEventType.end_of_track
        from by decide]
    norm_num
  · simp only [h0, h1, hvlv,
      show MetaEventType.ofValue 0x54 = some MetaEventType.smpte_offset
        from by decide]
    norm_num
  · simp only [h0, h1, hvlv,
      show MetaEventType.ofValue 0x58 = some MetaEventType.time_signature
        from by decide]
    norm_num
  · simp only [h0, h1, hvlv,
      show MetaEventType.ofValue 0x59 = some MetaEventType.key_signature
        from by decide]
    norm_num
  · simp only [h0, h1, hvlv,
      show MetaEventType.ofValue 0x7F = some MetaEventType.sequencer_specific_payload
        from by decide]
    norm_num

/-- Witness for C7's theorem at `FF 54 03 09`: an SMPTE-offset event
declaring a 3-byte payload with one byte remaining decodes successfully with
the truncated payload `[9]` and reported length 6. -/
theorem spec_C7_truncating_slice_witness :
    decode_variable_length_value (([0xFF, 0x54, 3, 9] : Bytes).drop 2) = some (3, 1) ∧
    MetaEvent.decode [0xFF, 0x54, 3, 9] =
      some ⟨3, 6, MetaContent.smpte_offset [9]⟩ :=
  ⟨by decide,
    (spec_C7_truncating_slice [0xFF, 0x54, 3, 9] 3 1 (by decide) (by decide)).2.1
      (by decide)⟩

/-- Counterexample for C7 as claimed: the meta event `FF 7F 04 01 02` declares
a 4-byte payload while only 2 bytes remain, yet decoding *succeeds* with the
shortened payload `[1, 2]` instead of failing with `TruncatedMetaPayload`. -/
theorem spec_C7_counterexample :
    MetaEvent.decode [0xFF, 0x7F, 4, 1, 2] =
      some ⟨4, 7, MetaContent.sequencer_specific_payload [1, 2]⟩ ∧
    (([0xFF, 0x7F, 4, 1, 2] : Bytes).drop 3).length < 4 := by
  decide

/-- C9: the 14-byte sequence `"MThd" 00 00 00 06 00 01 00 02 00 60` decodes to
a header chunk with format 1, track count 2, division 96, and re-encodes to
the identical 14 bytes; and every buffer whose tag reads `MThd` but whose
declared 32-bit length is not 6 fails to decode. -/
theorem spec_C9_header_scenario (byte_list : Bytes) (L : Nat)
    (htag : byte_list.take 4 = [77, 84, 104, 100])
    (hlen : bytes_to_uint32 ((byte_list.drop 4).take 4) = some L) (hL : L ≠ 6) :
    Chunk.decode [77, 84, 104, 100, 0, 0, 0, 6, 0, 1, 0, 2, 0, 96] =
      some ⟨6, ChunkBody.header 1 2 96⟩ ∧
    Chunk.to_bytes ⟨6, ChunkBody.header 1 2 96⟩ =
      some [77, 84, 104, 100, 0, 0, 0, 6, 0, 1, 0, 2, 0, 96] ∧
    Chunk.decode byte_list = none := by
  refine ⟨by decide, by decide, ?_⟩
  unfold Chunk.decode
  simp only [htag, hlen,
    show bytes_to_str [77, 84, 104, 100] = some [77, 84, 104, 100] from by decide,
    show ChunkType.ofString [77, 84, 104, 100] = some ChunkType.m_thd from by decide,
    if_neg hL]

/-- Witness for C9 at the concrete buffer `"MThd" 00 00 00 07`. -/
theorem spec_C9_header_scenario_witness :
    ([77, 84, 104, 100, 0, 0, 0, 7] : Bytes).take 4 = [77, 84, 104, 100] ∧
    Chunk.decode [77, 84, 104, 100, 0, 0, 0, 7] = none :=
  ⟨by decide,
    (spec_C9_header_scenario [77, 84, 104, 100, 0, 0, 0, 7] 7 (by decide) (by decide)
      (by decide)).2.2⟩

/-- C1 (corrected): `encode(decode(b)) == b` for every buffer `b` of bytes
that decodes to exactly one event, *except* in the cases the code itself
breaks: system events SongPosition/SongSelect (whose decoder discards the data
bytes and whose encoder emits constant zeros), meta events whose stored
payload count does not re-encode to the original length field (non-minimal
var-len encodings, and any count at or above 2^14 where the encoder is
broken), meta events of type copyright-notice (whose encoder reads a
misspelled attribute and fails), and meta events whose declared count differs
from the encoder's fixed output size for the stored attribute (2 for
sequence-number, 1 for channel-prefix, 3 for tempo, 0 for end-of-track). -/
theorem spec_C1_event_roundtrip (byte_list : Bytes) (e : Event)
    (h256 : ∀ x ∈ byte_list, x < 256)
    (hdec : Event.decode byte_list = some e)
    (hlen : Event.length e = byte_list.length)
    (hsys : ∀ s, e = Event.system s →
      s.event_type ≠ SystemEventType.common_song_position ∧
      s.event_type ≠ SystemEventType.common_song_select)
    (hmeta : ∀ m, e = Event.meta m →
      m.event_type ≠ MetaEventType.copyright_notice ∧
      encode_variable_length_value m.payload_length =
        (byte_list.drop 2).take (m.length - 2 - m.payload_length) ∧
      metaPayloadSizeOk m) :
    Event.to_bytes e = some byte_list := by
  unfold Event.decode at hdec
  split at hdec
  · exact Option.noConfusion hdec
  next code hcode =>
  split at hdec
  · obtain ⟨me, hme, rfl⟩ := Option.map_eq_some'.mp hdec
    simp only [Event.to_bytes, Option.some.injEq]
    exact midi_roundtrip byte_list me h256 hme hlen
  · obtain ⟨se, hse, rfl⟩ := Option.map_eq_some'.mp hdec
    obtain ⟨h1, h2⟩ := hsys se rfl
    simp only [Event.to_bytes, Option.some.injEq]
    exact system_roundtrip byte_list se hse hlen h1 h2
  · obtain ⟨m, hm, rfl⟩ := Option.map_eq_some'.mp hdec
    obtain ⟨h1, h2, h3⟩ := hmeta m rfl
    exact meta_roundtrip byte_list m h256 hm hlen h1 h2 h3
  · exact Option.noConfusion hdec

/-- Witness for C1's theorem at the concrete NoteOn event `90 3C 40`. -/
theorem spec_C1_event_roundtrip_witness :
    Event.decode [0x90, 0x3C, 0x40] =
      some (Event.midi ⟨0, 3, MidiEventData.note_on 0x3C 0x40⟩) ∧
    Event.to_bytes (Event.midi ⟨0, 3, MidiEventData.note_on 0x3C 0x40⟩) =
      some [0x90, 0x3C, 0x40] :=
  ⟨by decide,
    spec_C1_event_roundtrip [0x90, 0x3C, 0x40]
      (Event.midi ⟨0, 3, MidiEventData.note_on 0x3C 0x40⟩) (by decide) (by decide)
      (by decide) (fun s h => nomatch h) (fun m h => nomatch h)⟩

/-- Counterexample for C1 as claimed: the system-event bytes `F2 11 22`
(SongPosition with nonzero data bytes) are accepted by the decoder as exactly
one 3-byte event, yet re-encode to `F2 00 00`, not to the original bytes. -/
theorem spec_C1_counterexample :
    Event.decode [0xF2, 0x11, 0x22] =
      some (Event.system ⟨SystemEventType.common_song_position, 3, []⟩) ∧
    Event.length (Event.system ⟨SystemEventType.common_song_position, 3, []⟩) =
      ([0xF2, 0x11, 0x22] : Bytes).length ∧
    Event.to_bytes (Event.system ⟨SystemEventType.common_song_position, 3, []⟩) ≠
      some [0xF2, 0x11, 0x22] := by
  decide

end Midi
